import Mathlib

/-!
# WorthTracker: validation, aggregation and the storage contract

A shallow embedding of the domain layer of the WorthTracker server
(`server/main/userhandlers.go`, `server/main/itemhandlers.go`) over the
`DataAccess` interface of `server/main/database.go`.

Conventions of the embedding:

* a Go `string` is a Lean `String`, and `utf8.RuneCountInString` is
  `String.length` (the number of Unicode code points);
* a Go `int` / `int64` is an `Int`; the `int64` additions and subtractions of
  `GetItems` wrap around through `wrapInt64`;
* a Go pointer result is an `Option`, a Go `error` result is an
  `Option Error` (`none` is `nil`);
* the `DataAccess` interface is a record of state-passing functions over an
  arbitrary state type, so every theorem quantified over a `DataAccess` holds
  for every implementation of the interface;
* dereferencing a nil pointer is the outcome `Except.error Panic.nilDereference`.
-/

namespace WorthTracker

/-! ## Data model -/

/-- The constant `ItemTypeAsset` of `itemdata.go`. -/
def ItemTypeAsset : String := "Asset"

/-- The constant `ItemTypeLiability` of `itemdata.go`. -/
def ItemTypeLiability : String := "Liability"

/-- The struct `UserEntry` of `userdata.go`. -/
structure UserEntry where
  Id : Int
  Name : String
  deriving DecidableEq, Repr

/-- The struct `ItemEntry` of `itemdata.go`; the field `Type` is written
`Type_`, since `Type` is a keyword. -/
structure ItemEntry where
  Id : Int
  Uid : Int
  Name : String
  Type_ : String
  Value : Int
  deriving DecidableEq, Repr

/-- The error values of the program. The first six constructors are the error
structs of `userhandlers.go` and `itemhandlers.go`; `Storage` stands for any
other error value, such as the ones the SQL driver produces. -/
inductive Error where
  | InvalidUserName (Name : String) (Reason : String)
  | UserDoesNotExist (Name : Option String) (Uid : Option Int)
  | InvalidItemName (Name : String) (Reason : String)
  | InvalidItemType (Type_ : String) (Reason : String)
  | ItemDoesNotExist (Id : Int)
  | InvalidItemValue (Reason : String)
  | Storage (msg : String)
  deriving DecidableEq, Repr

/-- Whether an error value is an `InvalidUserNameError`. -/
def Error.isInvalidUserName : Error → Bool
  | .InvalidUserName _ _ => true
  | _ => false

/-- Whether an error value is an `InvalidItemTypeError`. -/
def Error.isInvalidItemType : Error → Bool
  | .InvalidItemType _ _ => true
  | _ => false

/-- A run-time panic of the Go program. -/
inductive Panic where
  | nilDereference
  deriving DecidableEq, Repr

/-- The struct `ItemList` of `itemhandlers.go`. -/
structure ItemList where
  Username : String
  Items : List ItemEntry
  NetWorth : Int
  AssetTotal : Int
  LiabilityTotal : Int
  deriving DecidableEq, Repr

/-- The interface `DataAccess` of `database.go`, as state-passing functions
over the state `σ` of the implementation. A method that returns a pointer and
an error returns a pair of options: the interface allows any combination. -/
structure DataAccess (σ : Type) where
  Close : σ → σ
  Standup : σ → Option Error × σ
  AddUser : σ → String → Option Error × σ
  FindUserByName : σ → String → (Option UserEntry × Option Error) × σ
  GetUsers : σ → (Option (List UserEntry) × Option Error) × σ
  AddItem : σ → Int → String → String → Int → Option Error × σ
  UpdateItem : σ → Int → Int → String → String → Int → Option Error × σ
  DeleteItem : σ → Int → Option Error × σ
  GetItemsByUser : σ → Int → (Option (List ItemEntry) × Option Error) × σ
  FindItemById : σ → Int → (Option ItemEntry × Option Error) × σ

/-! ## Item validation (`itemhandlers.go`) -/

/-- The function `validateItem` of `itemhandlers.go`. -/
def validateItem (name : String) (itemType : String) (value : Int) : Option Error :=
  let namelen := name.length
  if namelen ≤ 1 then
    some (.InvalidItemName name "Must be longer than 1 character.")
  else if namelen ≥ 200 then
    some (.InvalidItemName name "Must be shorter than 200 characters.")
  else if itemType ≠ ItemTypeAsset ∧ itemType ≠ ItemTypeLiability then
    some (.InvalidItemType itemType
      ("Must be " ++ ItemTypeAsset ++ " or " ++ ItemTypeLiability))
  else if value < 0 then
    some (.InvalidItemValue "Must be greater than zero.")
  else
    none

/-! ## User handlers (`userhandlers.go`) -/

/-- The function `FindUserByName` of `userhandlers.go`. -/
def FindUserByName {σ : Type} (da : DataAccess σ) (s : σ) (name : String) :
    (Option UserEntry × Option Error) × σ :=
  let r := da.FindUserByName s name
  let user := r.1.1
  let err := r.1.2
  if err.isSome || user.isNone then
    ((none, some (.UserDoesNotExist (some name) none)), r.2)
  else
    ((user, none), r.2)

/-- The function `AddUser` of `userhandlers.go`. -/
def AddUser {σ : Type} (da : DataAccess σ) (s : σ) (name : String) : Option Error × σ :=
  let namelen := name.length
  if namelen ≤ 1 then
    (some (.InvalidUserName name "Must be longer than 1 character."), s)
  else if namelen ≥ 64 then
    (some (.InvalidUserName name "Must be shorter than 64 characters."), s)
  else
    let r := da.FindUserByName s name
    let user := r.1.1
    let err := r.1.2
    if user.isSome then
      (some (.InvalidUserName name "There is already a user by that name."), r.2)
    else if err.isSome then
      (err, r.2)
    else
      da.AddUser r.2 name

/-! ## Item handlers (`itemhandlers.go`) -/

/-- The function `AddItem` of `itemhandlers.go`. -/
def AddItem {σ : Type} (da : DataAccess σ) (s : σ) (name : String) (itemType : String)
    (username : String) (value : Int) : Except Panic (Option Error) × σ :=
  match validateItem name itemType value with
  | some err => (.ok (some err), s)
  | none =>
    let r := FindUserByName da s username
    let user := r.1.1
    let err := r.1.2
    if err.isSome then
      (.ok err, r.2)
    else
      match user with
      | none => (.error .nilDereference, r.2)
      | some u =>
        let w := da.AddItem r.2 u.Id name itemType value
        (.ok w.1, w.2)

/-- The function `UpdateItem` of `itemhandlers.go`. -/
def UpdateItem {σ : Type} (da : DataAccess σ) (s : σ) (id : Int) (name : String)
    (itemType : String) (username : String) (value : Int) :
    Except Panic (Option Error) × σ :=
  let f := da.FindItemById s id
  let item := f.1.1
  let err := f.1.2
  if err.isSome || item.isNone then
    (.ok (some (.ItemDoesNotExist id)), f.2)
  else
    match validateItem name itemType value with
    | some err => (.ok (some err), f.2)
    | none =>
      let r := FindUserByName da f.2 username
      let user := r.1.1
      let err := r.1.2
      if err.isSome then
        (.ok err, r.2)
      else
        match user with
        | none => (.error .nilDereference, r.2)
        | some u =>
          let w := da.UpdateItem r.2 id u.Id name itemType value
          (.ok w.1, w.2)

/-- The function `DeleteItem` of `itemhandlers.go`. -/
def DeleteItem {σ : Type} (da : DataAccess σ) (s : σ) (id : Int) : Option Error × σ :=
  da.DeleteItem s id

/-- The value an `int64` variable holds after it is assigned the exact result
`x`: Go integer arithmetic wraps around in two's complement. -/
def wrapInt64 (x : Int) : Int :=
  (x + 2 ^ 63) % 2 ^ 64 - 2 ^ 63

/-- The local variables `net`, `asset`, `liability` of `GetItems`. -/
structure Totals where
  net : Int
  asset : Int
  liability : Int
  deriving DecidableEq, Repr

/-- One iteration of the loop of `GetItems`. -/
def totalsStep (t : Totals) (item : ItemEntry) : Totals :=
  if item.Type_ = ItemTypeAsset then
    { t with net := wrapInt64 (t.net + item.Value), asset := wrapInt64 (t.asset + item.Value) }
  else if item.Type_ = ItemTypeLiability then
    { t with net := wrapInt64 (t.net - item.Value),
             liability := wrapInt64 (t.liability + item.Value) }
  else
    t

/-- The loop of `GetItems`, from the zero values of the three variables. -/
def computeTotals (items : List ItemEntry) : Totals :=
  items.foldl totalsStep ⟨0, 0, 0⟩

/-- The function `GetItems` of `itemhandlers.go`. -/
def GetItems {σ : Type} (da : DataAccess σ) (s : σ) (username : String) :
    Except Panic (Option ItemList × Option Error) × σ :=
  let r := FindUserByName da s username
  let user := r.1.1
  let err := r.1.2
  if err.isSome then
    (.ok (none, err), r.2)
  else
    match user with
    | none => (.error .nilDereference, r.2)
    | some u =>
      let g := da.GetItemsByUser r.2 u.Id
      let items := g.1.1
      let err := g.1.2
      if err.isSome then
        (.ok (none, err), g.2)
      else
        match items with
        | none => (.error .nilDereference, g.2)
        | some l =>
          let t := computeTotals l
          (.ok (some ⟨username, l, t.net, t.asset, t.liability⟩, none), g.2)

/-! ## Observing the calls made on the interface -/

/-- A call of a method of `DataAccess`, with its arguments. -/
inductive Call where
  | Close
  | Standup
  | AddUser (username : String)
  | FindUserByName (username : String)
  | GetUsers
  | AddItem (userid : Int) (name : String) (itemType : String) (value : Int)
  | UpdateItem (id : Int) (userid : Int) (name : String) (itemType : String) (value : Int)
  | DeleteItem (id : Int)
  | GetItemsByUser (userid : Int)
  | FindItemById (id : Int)
  deriving DecidableEq, Repr

/-- The implementation `da` with a log: every method does what it does in `da`
and appends its call to the log carried next to the state. -/
def traced {σ : Type} (da : DataAccess σ) : DataAccess (σ × List Call) where
  Close := fun s => (da.Close s.1, s.2 ++ [.Close])
  Standup := fun s =>
    let r := da.Standup s.1
    (r.1, (r.2, s.2 ++ [.Standup]))
  AddUser := fun s username =>
    let r := da.AddUser s.1 username
    (r.1, (r.2, s.2 ++ [.AddUser username]))
  FindUserByName := fun s username =>
    let r := da.FindUserByName s.1 username
    (r.1, (r.2, s.2 ++ [.FindUserByName username]))
  GetUsers := fun s =>
    let r := da.GetUsers s.1
    (r.1, (r.2, s.2 ++ [.GetUsers]))
  AddItem := fun s userid name itemType value =>
    let r := da.AddItem s.1 userid name itemType value
    (r.1, (r.2, s.2 ++ [.AddItem userid name itemType value]))
  UpdateItem := fun s id userid name itemType value =>
    let r := da.UpdateItem s.1 id userid name itemType value
    (r.1, (r.2, s.2 ++ [.UpdateItem id userid name itemType value]))
  DeleteItem := fun s id =>
    let r := da.DeleteItem s.1 id
    (r.1, (r.2, s.2 ++ [.DeleteItem id]))
  GetItemsByUser := fun s userid =>
    let r := da.GetItemsByUser s.1 userid
    (r.1, (r.2, s.2 ++ [.GetItemsByUser userid]))
  FindItemById := fun s id =>
    let r := da.FindItemById s.1 id
    (r.1, (r.2, s.2 ++ [.FindItemById id]))

/-! ## An in-memory implementation of the interface -/

/-- The two tables of `standupSchema` (`database.go`), as lists of rows. -/
structure Store where
  users : List UserEntry
  items : List ItemEntry
  deriving DecidableEq, Repr

/-- The empty database, after `Standup`. -/
def Store.empty : Store := ⟨[], []⟩

/-- The next value of an `INTEGER PRIMARY KEY` column: one more than the
largest key in use. -/
def nextKey (keys : List Int) : Int :=
  keys.foldl max 0 + 1

/-- An implementation of `DataAccess` that keeps the tables in memory and
follows the SQL commands of `userdata.go` and `itemdata.go`: `users.name` is
`UNIQUE`, keys are assigned on insert, `REPLACE` removes the row of the same
key and adds the new one, a query that matches no row is no error. -/
def memDA : DataAccess Store where
  Close := fun s => s
  Standup := fun s => (none, s)
  AddUser := fun s username =>
    if s.users.any (fun u => u.Name == username) then
      (some (.Storage "UNIQUE constraint failed: users.name"), s)
    else
      (none, { s with users := s.users ++ [⟨nextKey (s.users.map UserEntry.Id), username⟩] })
  FindUserByName := fun s username =>
    ((s.users.find? (fun u => u.Name == username), none), s)
  GetUsers := fun s => ((some s.users, none), s)
  AddItem := fun s userid name itemType value =>
    (none, { s with items :=
      s.items ++ [⟨nextKey (s.items.map ItemEntry.Id), userid, name, itemType, value⟩] })
  UpdateItem := fun s id userid name itemType value =>
    (none, { s with items :=
      s.items.filter (fun i => i.Id != id) ++ [⟨id, userid, name, itemType, value⟩] })
  DeleteItem := fun s id =>
    (none, { s with items := s.items.filter (fun i => i.Id != id) })
  GetItemsByUser := fun s userid =>
    ((some (s.items.filter (fun i => i.Uid == userid)), none), s)
  FindItemById := fun s id =>
    ((s.items.find? (fun i => i.Id == id), none), s)

/-- The implementation `da` shared with a second client: the step `rival` of
that client reaches the store right after each lookup of a user by name, that
is between the lookup and the insert of `AddUser`. -/
def withRival {σ : Type} (da : DataAccess σ) (rival : σ → σ) : DataAccess σ :=
  { da with
    FindUserByName := fun s username =>
      let r := da.FindUserByName s username
      (r.1, rival r.2) }

/-- An implementation whose lookups fail with the error `e`, the outcome of
the `return nil, err` paths of `userdata.go` and `itemdata.go`; the other
methods are those of `memDA`. -/
def failingLookupDA (e : Error) : DataAccess Store :=
  { memDA with
    FindUserByName := fun s _ => ((none, some e), s)
    FindItemById := fun s _ => ((none, some e), s) }

/-- A second client that inserts the user `bob`. -/
def rivalBob (s : Store) : Store :=
  (memDA.AddUser s "bob").2

/-- Two assets whose values are non-negative 64-bit integers and whose sum is
2 ^ 63. -/
def overflowItems : List ItemEntry :=
  [⟨1, 1, "House", "Asset", 9223372036854775807⟩, ⟨2, 1, "Car", "Asset", 1⟩]

/-- Items of all sorts: two assets whose sum passes 2 ^ 63, a liability, an
item of a kind that is neither, and a negative value. -/
def mixedItems : List ItemEntry :=
  [⟨1, 1, "House", "Asset", 9223372036854775807⟩, ⟨2, 1, "Loan", "Liability", 30⟩,
   ⟨3, 1, "Car", "Asset", 20⟩, ⟨4, 1, "Wallet", "Cash", 7⟩,
   ⟨5, 1, "Debt", "Liability", -9223372036854775808⟩]

/-- The items of `mixedItems` in another order. -/
def mixedItemsReordered : List ItemEntry :=
  [⟨5, 1, "Debt", "Liability", -9223372036854775808⟩, ⟨3, 1, "Car", "Asset", 20⟩,
   ⟨4, 1, "Wallet", "Cash", 7⟩, ⟨1, 1, "House", "Asset", 9223372036854775807⟩,
   ⟨2, 1, "Loan", "Liability", 30⟩]

/-! ## Exact sums, for stating what `GetItems` computes -/

/-- The exact sum of the values of the items of kind `Asset`. -/
def assetSum (items : List ItemEntry) : Int :=
  ((items.filter (fun i => i.Type_ = ItemTypeAsset)).map ItemEntry.Value).sum

/-- The exact sum of the values of the items of kind `Liability`. -/
def liabilitySum (items : List ItemEntry) : Int :=
  ((items.filter (fun i => i.Type_ = ItemTypeLiability)).map ItemEntry.Value).sum

/-- The range of `int64`. -/
def inInt64 (x : Int) : Prop :=
  -2 ^ 63 ≤ x ∧ x < 2 ^ 63

instance (x : Int) : Decidable (inInt64 x) :=
  inferInstanceAs (Decidable (_ ∧ _))

/-! ## Theorems -/

/-! ### Arithmetic of `int64` -/

theorem wrapInt64_of_inInt64 {x : Int} (h : inInt64 x) : wrapInt64 x = x := by
  unfold inInt64 at h
  unfold wrapInt64
  omega

theorem inInt64_wrapInt64 (x : Int) : inInt64 (wrapInt64 x) := by
  unfold inInt64 wrapInt64
  omega

theorem wrapInt64_add_wrap (a b : Int) : wrapInt64 (wrapInt64 a + b) = wrapInt64 (a + b) := by
  unfold wrapInt64
  omega

theorem wrapInt64_sub_wrap (a b : Int) : wrapInt64 (wrapInt64 a - b) = wrapInt64 (a - b) := by
  unfold wrapInt64
  omega

/-! ### The loop of `GetItems` -/

theorem assetSum_cons (i : ItemEntry) (l : List ItemEntry) :
    assetSum (i :: l) = (if i.Type_ = ItemTypeAsset then i.Value else 0) + assetSum l := by
  unfold assetSum
  by_cases h : i.Type_ = ItemTypeAsset <;> simp [List.filter_cons, h]

theorem liabilitySum_cons (i : ItemEntry) (l : List ItemEntry) :
    liabilitySum (i :: l)
      = (if i.Type_ = ItemTypeLiability then i.Value else 0) + liabilitySum l := by
  unfold liabilitySum
  by_cases h : i.Type_ = ItemTypeLiability <;> simp [List.filter_cons, h]

theorem asset_ne_liability : ItemTypeAsset ≠ ItemTypeLiability := by decide

/-- The loop started from any values of the three variables: each variable
ends, up to wrap-around, at its start plus the exact sums. -/
theorem foldl_totalsStep (items : List ItemEntry) (t : Totals) :
    wrapInt64 (items.foldl totalsStep t).net
        = wrapInt64 (t.net + (assetSum items - liabilitySum items)) ∧
      wrapInt64 (items.foldl totalsStep t).asset = wrapInt64 (t.asset + assetSum items) ∧
      wrapInt64 (items.foldl totalsStep t).liability
        = wrapInt64 (t.liability + liabilitySum items) := by
  induction items generalizing t with
  | nil => simp [assetSum, liabilitySum]
  | cons i l ih =>
    rw [List.foldl_cons, assetSum_cons, liabilitySum_cons]
    obtain ⟨h1, h2, h3⟩ := ih (totalsStep t i)
    rw [h1, h2, h3]
    unfold totalsStep
    by_cases ha : i.Type_ = ItemTypeAsset
    · have hl : ¬ i.Type_ = ItemTypeLiability := fun h => asset_ne_liability (ha.symm.trans h)
      rw [if_pos ha, if_pos ha, if_neg hl]
      refine ⟨?_, ?_, ?_⟩
      · rw [wrapInt64_add_wrap]; congr 1; ring
      · rw [wrapInt64_add_wrap]; congr 1; ring
      · congr 1; ring
    · by_cases hl : i.Type_ = ItemTypeLiability
      · rw [if_neg ha, if_pos hl, if_neg ha, if_pos hl]
        refine ⟨?_, ?_, ?_⟩
        · rw [wrapInt64_add_wrap]; congr 1; ring
        · congr 1; ring
        · rw [wrapInt64_add_wrap]; congr 1; ring
      · rw [if_neg ha, if_neg hl, if_neg ha, if_neg hl]
        refine ⟨?_, ?_, ?_⟩ <;> (congr 1; ring)

/-- The three variables stay in the range of `int64`. -/
theorem foldl_totalsStep_inInt64 (items : List ItemEntry) (t : Totals)
    (h : inInt64 t.net ∧ inInt64 t.asset ∧ inInt64 t.liability) :
    inInt64 (items.foldl totalsStep t).net ∧ inInt64 (items.foldl totalsStep t).asset ∧
      inInt64 (items.foldl totalsStep t).liability := by
  induction items generalizing t with
  | nil => simpa using h
  | cons i l ih =>
    rw [List.foldl_cons]
    apply ih
    unfold totalsStep
    split_ifs
    · exact ⟨inInt64_wrapInt64 _, inInt64_wrapInt64 _, h.2.2⟩
    · exact ⟨inInt64_wrapInt64 _, h.2.1, inInt64_wrapInt64 _⟩
    · exact h

/-- What the loop of `GetItems` computes: the exact sums, wrapped to `int64`. -/
theorem computeTotals_eq (items : List ItemEntry) :
    computeTotals items
      = ⟨wrapInt64 (assetSum items - liabilitySum items), wrapInt64 (assetSum items),
         wrapInt64 (liabilitySum items)⟩ := by
  have h0 : inInt64 (0 : Int) := by decide
  obtain ⟨r1, r2, r3⟩ := foldl_totalsStep_inInt64 items ⟨0, 0, 0⟩ ⟨h0, h0, h0⟩
  obtain ⟨e1, e2, e3⟩ := foldl_totalsStep items ⟨0, 0, 0⟩
  rw [wrapInt64_of_inInt64 r1] at e1
  rw [wrapInt64_of_inInt64 r2] at e2
  rw [wrapInt64_of_inInt64 r3] at e3
  simp only [zero_add] at e1 e2 e3
  unfold computeTotals
  cases hfold : List.foldl totalsStep ⟨0, 0, 0⟩ items with
  | mk n a l =>
    rw [hfold] at e1 e2 e3
    simp only at e1 e2 e3
    rw [e1, e2, e3]

/-! ### The handlers over a gateway whose answers are known -/

/-- The domain lookup when the gateway finds the user. -/
theorem FindUserByName_found {σ : Type} (da : DataAccess σ) (s s1 : σ) (name : String)
    (u : UserEntry) (h : da.FindUserByName s name = ((some u, none), s1)) :
    FindUserByName da s name = ((some u, none), s1) := by
  simp [FindUserByName, h]

/-- The report of `GetItems` when the gateway finds the user and lists the
items `items` for the id of that user. -/
theorem GetItems_ok {σ : Type} (da : DataAccess σ) (s s1 s2 : σ) (username : String)
    (u : UserEntry) (items : List ItemEntry)
    (hu : da.FindUserByName s username = ((some u, none), s1))
    (hl : da.GetItemsByUser s1 u.Id = ((some items, none), s2)) :
    GetItems da s username
      = (.ok (some ⟨username, items, (computeTotals items).net, (computeTotals items).asset,
          (computeTotals items).liability⟩, none), s2) := by
  simp [GetItems, FindUserByName_found da s s1 username u hu, hl]

/-- C1: `validateItem` returns no error exactly when the name has more than 1
and fewer than 200 code points, the kind is `Asset` or `Liability` and the
value is not negative; otherwise the error is `InvalidItemName` when the name
length is out of range, else `InvalidItemType` when the kind is neither, else
`InvalidItemValue`. -/
theorem validateItem_spec (name kind : String) (value : Int) :
    (validateItem name kind value = none ↔
      (1 < name.length ∧ name.length < 200 ∧ (kind = "Asset" ∨ kind = "Liability")
        ∧ 0 ≤ value)) ∧
    (¬ (1 < name.length ∧ name.length < 200) →
      ∃ reason, validateItem name kind value = some (.InvalidItemName name reason)) ∧
    (1 < name.length ∧ name.length < 200 → ¬ (kind = "Asset" ∨ kind = "Liability") →
      validateItem name kind value
        = some (.InvalidItemType kind "Must be Asset or Liability")) ∧
    (1 < name.length ∧ name.length < 200 → (kind = "Asset" ∨ kind = "Liability") →
      value < 0 →
      validateItem name kind value = some (.InvalidItemValue "Must be greater than zero.")) := by
  have hmsg : "Must be " ++ ItemTypeAsset ++ " or " ++ ItemTypeLiability
      = "Must be Asset or Liability" := by decide
  unfold validateItem
  simp only [hmsg, ItemTypeAsset, ItemTypeLiability]
  refine ⟨?_, ?_, ?_, ?_⟩
  · split_ifs with h1 h2 h3 h4
    · simp; omega
    · simp; omega
    · simp; tauto
    · simp; omega
    · simp; refine ⟨by omega, by omega, by tauto, by omega⟩
  · intro h
    split_ifs <;> first | exact ⟨_, rfl⟩ | omega
  · intro h hk
    split_ifs <;> first | rfl | omega | tauto
  · intro h hk hv
    split_ifs <;> first | rfl | omega | tauto

/-- Instance of C1: with a valid name and kind, the value -1 is rejected with
`InvalidItemValue` and the value 0 is accepted. -/
theorem validateItem_spec_witness :
    validateItem "Savings" "Asset" (-1)
        = some (.InvalidItemValue "Must be greater than zero.") ∧
      validateItem "Savings" "Asset" 0 = none :=
  ⟨(validateItem_spec "Savings" "Asset" (-1)).2.2.2 (by decide) (by decide) (by decide),
   (validateItem_spec "Savings" "Asset" 0).1.2 (by decide)⟩

/-- C2: when the gateway finds the user and lists `items` for the id of that
user, and the Asset sum, the Liability sum and their difference fit in 64 bits,
`GetItems` returns without error the report of these items whose `AssetTotal`
is the sum of the values of the items of kind `Asset`, whose `LiabilityTotal`
is the sum of the values of the items of kind `Liability` and whose `NetWorth`
is the first sum minus the second; items of another kind are in neither sum. -/
theorem GetItems_totals {σ : Type} (da : DataAccess σ) (s s1 s2 : σ) (username : String)
    (u : UserEntry) (items : List ItemEntry)
    (hu : da.FindUserByName s username = ((some u, none), s1))
    (hl : da.GetItemsByUser s1 u.Id = ((some items, none), s2))
    (hA : inInt64 (assetSum items)) (hL : inInt64 (liabilitySum items))
    (hN : inInt64 (assetSum items - liabilitySum items)) :
    GetItems da s username
      = (.ok (some ⟨username, items, assetSum items - liabilitySum items, assetSum items,
          liabilitySum items⟩, none), s2) := by
  rw [GetItems_ok da s s1 s2 username u items hu hl, computeTotals_eq,
    wrapInt64_of_inInt64 hA, wrapInt64_of_inInt64 hL, wrapInt64_of_inInt64 hN]

/-- Instances of C2 on the in-memory store: the items
[{Asset,100},{Liability,30},{Asset,20}] give 90 / 120 / 30, and a user with no
item gets an empty item list, three totals 0 and no error. -/
theorem GetItems_totals_witness :
    GetItems memDA
        ⟨[⟨1, "bob"⟩], [⟨1, 1, "House", "Asset", 100⟩, ⟨2, 1, "Loan", "Liability", 30⟩,
          ⟨3, 1, "Car", "Asset", 20⟩]⟩ "bob"
      = (.ok (some ⟨"bob", [⟨1, 1, "House", "Asset", 100⟩, ⟨2, 1, "Loan", "Liability", 30⟩,
          ⟨3, 1, "Car", "Asset", 20⟩], 90, 120, 30⟩, none),
         ⟨[⟨1, "bob"⟩], [⟨1, 1, "House", "Asset", 100⟩, ⟨2, 1, "Loan", "Liability", 30⟩,
          ⟨3, 1, "Car", "Asset", 20⟩]⟩) ∧
    GetItems memDA ⟨[⟨1, "bob"⟩], []⟩ "bob"
      = (.ok (some ⟨"bob", [], 0, 0, 0⟩, none), ⟨[⟨1, "bob"⟩], []⟩) :=
  ⟨GetItems_totals memDA _ _ _ "bob" ⟨1, "bob"⟩
      [⟨1, 1, "House", "Asset", 100⟩, ⟨2, 1, "Loan", "Liability", 30⟩,
        ⟨3, 1, "Car", "Asset", 20⟩] rfl rfl (by decide) (by decide) (by decide),
   GetItems_totals memDA _ _ _ "bob" ⟨1, "bob"⟩ [] rfl rfl (by decide) (by decide)
      (by decide)⟩

/-- C3: a name of at most 1 or at least 64 code points makes `AddUser` fail
with `InvalidUserName` and the gateway is not called (the log of calls and the
state are unchanged); a name of 2 to 63 code points that the gateway does not
hold and whose insert the gateway accepts makes `AddUser` return no error. -/
theorem AddUser_name_length {σ : Type} (da : DataAccess σ) (s : σ) (name : String) :
    (name.length ≤ 1 ∨ 64 ≤ name.length →
      ∀ log : List Call, ∃ reason,
        AddUser (traced da) (s, log) name = (some (.InvalidUserName name reason), (s, log))) ∧
    (2 ≤ name.length ∧ name.length ≤ 63 →
      (da.FindUserByName s name).1 = (none, none) →
      (da.AddUser (da.FindUserByName s name).2 name).1 = none →
      (AddUser da s name).1 = none) := by
  constructor
  · intro h log
    unfold AddUser
    by_cases h1 : name.length ≤ 1
    · exact ⟨"Must be longer than 1 character.", by simp only [if_pos h1]⟩
    · have h2 : name.length ≥ 64 := by omega
      exact ⟨"Must be shorter than 64 characters.", by simp only [if_neg h1, if_pos h2]⟩
  · intro h hf hi
    unfold AddUser
    have h1 : ¬ name.length ≤ 1 := by omega
    have h2 : ¬ name.length ≥ 64 := by omega
    simp [h1, h2, hf, hi]

/-- Instances of C3 on the in-memory store: the empty name, a name of one
code point, a name of 64 and a name of 65 code points are rejected with
`InvalidUserName` without a call of the gateway; a name of 63 code points is
accepted. -/
theorem AddUser_name_length_witness :
    (∃ reason, AddUser (traced memDA) (Store.empty, []) ""
      = (some (.InvalidUserName "" reason), (Store.empty, []))) ∧
    (∃ reason, AddUser (traced memDA) (Store.empty, []) "a"
      = (some (.InvalidUserName "a" reason), (Store.empty, []))) ∧
    (∃ reason, AddUser (traced memDA) (Store.empty, []) (String.mk (List.replicate 64 'n'))
      = (some (.InvalidUserName (String.mk (List.replicate 64 'n')) reason),
          (Store.empty, []))) ∧
    (∃ reason, AddUser (traced memDA) (Store.empty, []) (String.mk (List.replicate 65 'n'))
      = (some (.InvalidUserName (String.mk (List.replicate 65 'n')) reason),
          (Store.empty, []))) ∧
    (AddUser memDA Store.empty (String.mk (List.replicate 63 'n'))).1 = none :=
  ⟨(AddUser_name_length memDA Store.empty "").1 (by decide) [],
   (AddUser_name_length memDA Store.empty "a").1 (by decide) [],
   (AddUser_name_length memDA Store.empty (String.mk (List.replicate 64 'n'))).1
      (by decide) [],
   (AddUser_name_length memDA Store.empty (String.mk (List.replicate 65 'n'))).1
      (by decide) [],
   (AddUser_name_length memDA Store.empty (String.mk (List.replicate 63 'n'))).2
      (by decide) rfl rfl⟩

/-- C4: for a name of 2 to 63 code points, over a store that holds no user of
that name (the lookup reports absence), takes the insert, and finds the
inserted user at the next lookup, the first `AddUser` returns no error and makes
exactly one insert, of that name; the second `AddUser` of the same name fails
with `InvalidUserName` and makes no insert. -/
theorem AddUser_twice {σ : Type} (da : DataAccess σ) (s s1 s2 s3 : σ) (name : String)
    (u : UserEntry) (e : Option Error)
    (hlen : 2 ≤ name.length ∧ name.length ≤ 63)
    (h1 : da.FindUserByName s name = ((none, none), s1))
    (h2 : da.AddUser s1 name = (none, s2))
    (h3 : da.FindUserByName s2 name = ((some u, e), s3)) :
    AddUser (traced da) (s, []) name
        = (none, (s2, [.FindUserByName name, .AddUser name])) ∧
      AddUser (traced da) (s2, []) name
        = (some (.InvalidUserName name "There is already a user by that name."),
            (s3, [.FindUserByName name])) := by
  have l1 : ¬ name.length ≤ 1 := by omega
  have l2 : ¬ name.length ≥ 64 := by omega
  constructor
  · simp [AddUser, traced, l1, l2, h1, h2]
  · simp [AddUser, traced, l1, l2, h3]

/-- Instance of C4 on the in-memory store, from the empty database. -/
theorem AddUser_twice_witness :
    AddUser (traced memDA) (Store.empty, []) "alice"
        = (none, (⟨[⟨1, "alice"⟩], []⟩, [.FindUserByName "alice", .AddUser "alice"])) ∧
      AddUser (traced memDA) (⟨[⟨1, "alice"⟩], []⟩, []) "alice"
        = (some (.InvalidUserName "alice" "There is already a user by that name."),
            (⟨[⟨1, "alice"⟩], []⟩, [.FindUserByName "alice"])) :=
  AddUser_twice memDA Store.empty Store.empty ⟨[⟨1, "alice"⟩], []⟩ ⟨[⟨1, "alice"⟩], []⟩
    "alice" ⟨1, "alice"⟩ none (by decide) rfl rfl rfl

/-- C5: when the gateway returns no item for the id, whatever the name, the
kind, the username and the value are, `UpdateItem` fails with `ItemNotFound`
carrying that id, and its only call of the gateway is the lookup of the item:
no user lookup and no write. -/
theorem UpdateItem_absent {σ : Type} (da : DataAccess σ) (s : σ) (log : List Call) (id : Int)
    (name itemType username : String) (value : Int)
    (h : (da.FindItemById s id).1.1 = none) :
    UpdateItem (traced da) (s, log) id name itemType username value
      = (.ok (some (.ItemDoesNotExist id)),
          ((da.FindItemById s id).2, log ++ [.FindItemById id])) := by
  simp [UpdateItem, traced, h]

/-- Instance of C5 on the empty in-memory store, with a name, a kind and a
value that `validateItem` rejects and a user that does not exist. -/
theorem UpdateItem_absent_witness :
    validateItem "" "Cash" (-5) ≠ none ∧
      UpdateItem (traced memDA) (Store.empty, []) 7 "" "Cash" "nobody" (-5)
        = (.ok (some (.ItemDoesNotExist 7)), (Store.empty, [.FindItemById 7])) :=
  ⟨by decide, UpdateItem_absent memDA Store.empty [] 7 "" "Cash" "nobody" (-5) rfl⟩

/-- C6, counterexample: with the kind `Cash` and the empty name, for a user
that exists, `AddItem` fails with `InvalidItemName`, which is not
`InvalidItemType`. -/
theorem AddItem_cash_counterexample :
    (AddItem memDA ⟨[⟨1, "bob"⟩], []⟩ "" "Cash" "bob" 5).1
        = .ok (some (.InvalidItemName "" "Must be longer than 1 character.")) ∧
      (Error.InvalidItemName "" "Must be longer than 1 character.").isInvalidItemType
        = false :=
  ⟨rfl, rfl⟩

/-- C6, amended: for every name of more than 1 and fewer than 200 code points,
every username and every value, `AddItem` with the kind `Cash` fails with
`InvalidItemType`, and the gateway is not called. -/
theorem AddItem_cash {σ : Type} (da : DataAccess σ) (s : σ) (log : List Call)
    (name username : String) (value : Int)
    (h : 1 < name.length ∧ name.length < 200) :
    AddItem (traced da) (s, log) name "Cash" username value
      = (.ok (some (.InvalidItemType "Cash" "Must be Asset or Liability")), (s, log)) := by
  have l1 : ¬ name.length ≤ 1 := by omega
  have l2 : ¬ name.length ≥ 200 := by omega
  have hk : "Cash" ≠ ItemTypeAsset ∧ "Cash" ≠ ItemTypeLiability := by decide
  have hmsg : "Must be " ++ ItemTypeAsset ++ " or " ++ ItemTypeLiability
      = "Must be Asset or Liability" := by decide
  have hv : validateItem name "Cash" value
      = some (.InvalidItemType "Cash" "Must be Asset or Liability") := by
    unfold validateItem
    simp only [if_neg l1, if_neg l2, if_pos hk, hmsg]
  simp [AddItem, hv]

/-- Instance of C6 as amended: a negative value and a user that does not
exist. -/
theorem AddItem_cash_witness :
    AddItem (traced memDA) (Store.empty, []) "Wallet" "Cash" "nobody" (-3)
      = (.ok (some (.InvalidItemType "Cash" "Must be Asset or Liability")),
          (Store.empty, [])) :=
  AddItem_cash memDA Store.empty [] "Wallet" "nobody" (-3) (by decide)

/-- C7, counterexample: two assets of values 2 ^ 63 - 1 and 1, both
non-negative 64-bit integers, give the `AssetTotal` -2 ^ 63, which is negative. -/
theorem GetItems_totals_nonneg_counterexample :
    (∀ i ∈ overflowItems, 0 ≤ i.Value ∧ inInt64 i.Value) ∧
      (GetItems memDA ⟨[⟨1, "bob"⟩], overflowItems⟩ "bob").1
        = .ok (some ⟨"bob", overflowItems, -9223372036854775808, -9223372036854775808, 0⟩,
            none) ∧
      (-9223372036854775808 : Int) < 0 :=
  ⟨by decide, rfl, by decide⟩

/-- The Asset sum of items of non-negative values is not negative. -/
theorem assetSum_nonneg (items : List ItemEntry) (h : ∀ i ∈ items, 0 ≤ i.Value) :
    0 ≤ assetSum items := by
  induction items with
  | nil => simp [assetSum]
  | cons i l ih =>
    rw [assetSum_cons]
    have hi : 0 ≤ i.Value := h i (List.mem_cons_self i l)
    have hl := ih (fun j hj => h j (List.mem_cons_of_mem i hj))
    split_ifs <;> omega

/-- The Liability sum of items of non-negative values is not negative. -/
theorem liabilitySum_nonneg (items : List ItemEntry) (h : ∀ i ∈ items, 0 ≤ i.Value) :
    0 ≤ liabilitySum items := by
  induction items with
  | nil => simp [liabilitySum]
  | cons i l ih =>
    rw [liabilitySum_cons]
    have hi : 0 ≤ i.Value := h i (List.mem_cons_self i l)
    have hl := ih (fun j hj => h j (List.mem_cons_of_mem i hj))
    split_ifs <;> omega

/-- C7, amended: when each value is a non-negative 64-bit integer and the exact
sum of the Asset values and the exact sum of the Liability values are both
below 2 ^ 63, the `AssetTotal` and the `LiabilityTotal` of the report of
`GetItems` are the exact sums and are not negative. -/
theorem GetItems_totals_nonneg {σ : Type} (da : DataAccess σ) (s s1 s2 : σ)
    (username : String) (u : UserEntry) (items : List ItemEntry)
    (hu : da.FindUserByName s username = ((some u, none), s1))
    (hl : da.GetItemsByUser s1 u.Id = ((some items, none), s2))
    (hv : ∀ i ∈ items, 0 ≤ i.Value ∧ inInt64 i.Value)
    (hA : assetSum items < 2 ^ 63) (hL : liabilitySum items < 2 ^ 63) :
    ∃ report, GetItems da s username = (.ok (some report, none), s2) ∧
      report.Items = items ∧
      report.AssetTotal = assetSum items ∧ report.LiabilityTotal = liabilitySum items ∧
      0 ≤ report.AssetTotal ∧ 0 ≤ report.LiabilityTotal := by
  have nA := assetSum_nonneg items (fun i hi => (hv i hi).1)
  have nL := liabilitySum_nonneg items (fun i hi => (hv i hi).1)
  have iA : inInt64 (assetSum items) := ⟨by omega, hA⟩
  have iL : inInt64 (liabilitySum items) := ⟨by omega, hL⟩
  refine ⟨_, GetItems_ok da s s1 s2 username u items hu hl, rfl, ?_, ?_, ?_, ?_⟩
  · simp only [computeTotals_eq]
    exact wrapInt64_of_inInt64 iA
  · simp only [computeTotals_eq]
    exact wrapInt64_of_inInt64 iL
  · simp only [computeTotals_eq]
    rw [wrapInt64_of_inInt64 iA]
    exact nA
  · simp only [computeTotals_eq]
    rw [wrapInt64_of_inInt64 iL]
    exact nL

/-- Instance of C7 as amended on the in-memory store. -/
theorem GetItems_totals_nonneg_witness :
    ∃ report,
      GetItems memDA
          ⟨[⟨1, "bob"⟩], [⟨1, 1, "House", "Asset", 100⟩, ⟨2, 1, "Loan", "Liability", 30⟩]⟩
          "bob"
        = (.ok (some report, none),
            ⟨[⟨1, "bob"⟩], [⟨1, 1, "House", "Asset", 100⟩, ⟨2, 1, "Loan", "Liability", 30⟩]⟩) ∧
      report.Items = [⟨1, 1, "House", "Asset", 100⟩, ⟨2, 1, "Loan", "Liability", 30⟩] ∧
      report.AssetTotal
        = assetSum [⟨1, 1, "House", "Asset", 100⟩, ⟨2, 1, "Loan", "Liability", 30⟩] ∧
      report.LiabilityTotal
        = liabilitySum [⟨1, 1, "House", "Asset", 100⟩, ⟨2, 1, "Loan", "Liability", 30⟩] ∧
      0 ≤ report.AssetTotal ∧ 0 ≤ report.LiabilityTotal :=
  GetItems_totals_nonneg memDA _ _ _ "bob" ⟨1, "bob"⟩
    [⟨1, 1, "House", "Asset", 100⟩, ⟨2, 1, "Loan", "Liability", 30⟩] rfl rfl
    (by decide) (by decide) (by decide)

/-- C8, counterexample: a second client inserts `bob` between the lookup and
the insert of `AddUser`; the lookup reports no such user, the insert is
rejected by the uniqueness constraint of the store, and `AddUser` returns the
error of the store, which is not an `InvalidUserName`. -/
theorem AddUser_insert_rejected_counterexample :
    ((withRival memDA rivalBob).FindUserByName Store.empty "bob").1 = (none, none) ∧
      AddUser (withRival memDA rivalBob) Store.empty "bob"
        = (some (.Storage "UNIQUE constraint failed: users.name"), ⟨[⟨1, "bob"⟩], []⟩) ∧
      (Error.Storage "UNIQUE constraint failed: users.name").isInvalidUserName = false :=
  ⟨rfl, rfl, rfl⟩

/-- C8, amended: for a name of valid length that passes the uniqueness lookup,
`AddUser` returns what the insert of the gateway returns; when that insert is
rejected with the error `e`, `AddUser` returns `e` itself, unchanged. -/
theorem AddUser_insert_error {σ : Type} (da : DataAccess σ) (s : σ) (name : String)
    (e : Error)
    (hlen : 2 ≤ name.length ∧ name.length ≤ 63)
    (hf : (da.FindUserByName s name).1 = (none, none))
    (hi : (da.AddUser (da.FindUserByName s name).2 name).1 = some e) :
    AddUser da s name = da.AddUser (da.FindUserByName s name).2 name ∧
      (AddUser da s name).1 = some e := by
  have l1 : ¬ name.length ≤ 1 := by omega
  have l2 : ¬ name.length ≥ 64 := by omega
  have h : AddUser da s name = da.AddUser (da.FindUserByName s name).2 name := by
    simp [AddUser, l1, l2, hf]
  exact ⟨h, by rw [h, hi]⟩

/-- Instance of C8 as amended: the insert rejected by the uniqueness
constraint of the in-memory store. -/
theorem AddUser_insert_error_witness :
    AddUser (withRival memDA rivalBob) Store.empty "bob"
        = (withRival memDA rivalBob).AddUser
            ((withRival memDA rivalBob).FindUserByName Store.empty "bob").2 "bob" ∧
      (AddUser (withRival memDA rivalBob) Store.empty "bob").1
        = some (.Storage "UNIQUE constraint failed: users.name") :=
  AddUser_insert_error (withRival memDA rivalBob) Store.empty "bob"
    (.Storage "UNIQUE constraint failed: users.name") (by decide) rfl rfl

/-- C9, counterexample: the lookup of the gateway fails with a storage error,
and the domain `FindUserByName` returns `UserNotFound` for the name in place
of that error. -/
theorem FindUserByName_storage_error_counterexample :
    ((failingLookupDA (.Storage "database is locked")).FindUserByName Store.empty "bob").1
        = (none, some (.Storage "database is locked")) ∧
      (FindUserByName (failingLookupDA (.Storage "database is locked")) Store.empty "bob").1
        = (none, some (.UserDoesNotExist (some "bob") none)) ∧
      (FindUserByName (failingLookupDA (.Storage "database is locked")) Store.empty "bob").1.2
        ≠ some (.Storage "database is locked") :=
  ⟨rfl, rfl, by decide⟩

/-- C9, amended: the domain `FindUserByName` makes the lookup of the gateway
and keeps its state; when the gateway finds the user without an error, it
returns that user unchanged and no error; in every other case, the gateway
reporting absence or its lookup failing with an error, it returns no user and
`UserNotFound` carrying the requested name. -/
theorem FindUserByName_spec {σ : Type} (da : DataAccess σ) (s : σ) (name : String) :
    (FindUserByName da s name).2 = (da.FindUserByName s name).2 ∧
    (∀ u, (da.FindUserByName s name).1 = (some u, none) →
      (FindUserByName da s name).1 = (some u, none)) ∧
    ((da.FindUserByName s name).1.1 = none ∨ (da.FindUserByName s name).1.2 ≠ none →
      (FindUserByName da s name).1 = (none, some (.UserDoesNotExist (some name) none))) := by
  refine ⟨?_, ?_, ?_⟩
  · unfold FindUserByName
    simp only
    split_ifs <;> rfl
  · intro u h
    simp [FindUserByName, h]
  · intro h
    unfold FindUserByName
    simp only
    rw [if_pos]
    rcases h with h | h
    · simp [h]
    · cases he : (da.FindUserByName s name).1.2 with
      | none => exact absurd he h
      | some e => simp

/-- Instances of C9 as amended on the in-memory store: a user that is found,
a user that is absent, and a lookup that fails. -/
theorem FindUserByName_spec_witness :
    (FindUserByName memDA ⟨[⟨1, "bob"⟩], []⟩ "bob").1 = (some ⟨1, "bob"⟩, none) ∧
      (FindUserByName memDA ⟨[⟨1, "bob"⟩], []⟩ "eve").1
        = (none, some (.UserDoesNotExist (some "eve") none)) ∧
      (FindUserByName (failingLookupDA (.Storage "database is locked")) Store.empty "bob").1
        = (none, some (.UserDoesNotExist (some "bob") none)) :=
  ⟨(FindUserByName_spec memDA ⟨[⟨1, "bob"⟩], []⟩ "bob").2.1 ⟨1, "bob"⟩ rfl,
   (FindUserByName_spec memDA ⟨[⟨1, "bob"⟩], []⟩ "eve").2.2 (Or.inl rfl),
   (FindUserByName_spec (failingLookupDA (.Storage "database is locked")) Store.empty
      "bob").2.2 (Or.inr (by decide))⟩

/-- C10: for a name, a kind and a value that `validateItem` accepts and a
username that the gateway resolves to the user `u`, over a store that takes the
insert and whose later listing for the id of `u` holds an item of that owner,
name, kind and value, `AddItem` returns no error and its only write is the
insert of exactly (`u.Id`, name, kind, value); the following `GetItems` returns
a report for the username whose items are that listing, so it contains an item
with owner `u.Id` and the name, kind and value given to `AddItem`. -/
theorem AddItem_GetItems_roundtrip {σ : Type} (da : DataAccess σ) (s s1 s2 s3 s4 : σ)
    (name itemType username : String) (value : Int) (u : UserEntry) (items : List ItemEntry)
    (hv : validateItem name itemType value = none)
    (hu : da.FindUserByName s username = ((some u, none), s1))
    (hi : da.AddItem s1 u.Id name itemType value = (none, s2))
    (hu2 : da.FindUserByName s2 username = ((some u, none), s3))
    (hl : da.GetItemsByUser s3 u.Id = ((some items, none), s4))
    (hmem : ∃ i ∈ items, i.Uid = u.Id ∧ i.Name = name ∧ i.Type_ = itemType ∧ i.Value = value) :
    AddItem (traced da) (s, []) name itemType username value
        = (.ok none, (s2, [.FindUserByName username, .AddItem u.Id name itemType value])) ∧
      ∃ report, GetItems da s2 username = (.ok (some report, none), s4) ∧
        report.Username = username ∧ report.Items = items ∧
        ∃ i ∈ report.Items,
          i.Uid = u.Id ∧ i.Name = name ∧ i.Type_ = itemType ∧ i.Value = value := by
  constructor
  · simp [AddItem, FindUserByName, traced, hv, hu, hi]
  · exact ⟨_, GetItems_ok da s2 s3 s4 username u items hu2 hl, rfl, rfl, hmem⟩

/-- Instance of C10 on the in-memory store: `bob` adds the asset `Savings` of
value 100 and the listing returns it with his id. -/
theorem AddItem_GetItems_roundtrip_witness :
    AddItem (traced memDA) (⟨[⟨1, "bob"⟩], []⟩, []) "Savings" "Asset" "bob" 100
        = (.ok none, (⟨[⟨1, "bob"⟩], [⟨1, 1, "Savings", "Asset", 100⟩]⟩,
            [.FindUserByName "bob", .AddItem 1 "Savings" "Asset" 100])) ∧
      ∃ report,
        GetItems memDA ⟨[⟨1, "bob"⟩], [⟨1, 1, "Savings", "Asset", 100⟩]⟩ "bob"
          = (.ok (some report, none), ⟨[⟨1, "bob"⟩], [⟨1, 1, "Savings", "Asset", 100⟩]⟩) ∧
        report.Username = "bob" ∧ report.Items = [⟨1, 1, "Savings", "Asset", 100⟩] ∧
        ∃ i ∈ report.Items,
          i.Uid = 1 ∧ i.Name = "Savings" ∧ i.Type_ = "Asset" ∧ i.Value = 100 :=
  AddItem_GetItems_roundtrip memDA ⟨[⟨1, "bob"⟩], []⟩ ⟨[⟨1, "bob"⟩], []⟩
    ⟨[⟨1, "bob"⟩], [⟨1, 1, "Savings", "Asset", 100⟩]⟩
    ⟨[⟨1, "bob"⟩], [⟨1, 1, "Savings", "Asset", 100⟩]⟩
    ⟨[⟨1, "bob"⟩], [⟨1, 1, "Savings", "Asset", 100⟩]⟩
    "Savings" "Asset" "bob" 100 ⟨1, "bob"⟩ [⟨1, 1, "Savings", "Asset", 100⟩]
    (by decide) rfl rfl rfl rfl ⟨_, List.mem_singleton.mpr rfl, rfl, rfl, rfl, rfl⟩

/-! ### The totals modulo 2 ^ 64 and the order of the items -/

theorem wrapInt64_sub_wraps (a b : Int) :
    wrapInt64 (wrapInt64 a - wrapInt64 b) = wrapInt64 (a - b) := by
  unfold wrapInt64
  omega

theorem wrapInt64_modEq (x : Int) : (wrapInt64 x - x) % 2 ^ 64 = 0 := by
  unfold wrapInt64
  omega

theorem assetSum_perm {l l2 : List ItemEntry} (h : l.Perm l2) : assetSum l = assetSum l2 := by
  unfold assetSum
  exact ((h.filter _).map _).sum_eq

theorem liabilitySum_perm {l l2 : List ItemEntry} (h : l.Perm l2) :
    liabilitySum l = liabilitySum l2 := by
  unfold liabilitySum
  exact ((h.filter _).map _).sum_eq

/-- The three variables of the loop do not depend on the order of the items. -/
theorem computeTotals_perm {l l2 : List ItemEntry} (h : l.Perm l2) :
    computeTotals l = computeTotals l2 := by
  rw [computeTotals_eq, computeTotals_eq, assetSum_perm h, liabilitySum_perm h]

/-- After the loop, `net` is `asset - liability` computed in `int64`. -/
theorem computeTotals_net (l : List ItemEntry) :
    (computeTotals l).net
      = wrapInt64 ((computeTotals l).asset - (computeTotals l).liability) := by
  rw [computeTotals_eq]
  exact (wrapInt64_sub_wraps _ _).symm

/-- C11: for every item sequence the gateway lists for the user, of any kinds
and any values, the report of `GetItems` has `NetWorth` equal to
`AssetTotal - LiabilityTotal` computed in 64-bit wrap-around arithmetic, that
is equal to it modulo 2 ^ 64, with the three totals in the range of `int64`;
and a second run whose listing holds the same items in another order returns
the same three totals. -/
theorem GetItems_net_identity {σ : Type} (da : DataAccess σ) (s s1 s2 t t1 t2 : σ)
    (username : String) (u : UserEntry) (items items2 : List ItemEntry)
    (hu : da.FindUserByName s username = ((some u, none), s1))
    (hl : da.GetItemsByUser s1 u.Id = ((some items, none), s2))
    (hu2 : da.FindUserByName t username = ((some u, none), t1))
    (hl2 : da.GetItemsByUser t1 u.Id = ((some items2, none), t2))
    (hp : items2.Perm items) :
    ∃ r r2, GetItems da s username = (.ok (some r, none), s2) ∧
      GetItems da t username = (.ok (some r2, none), t2) ∧
      r.Items = items ∧ r2.Items = items2 ∧
      r.NetWorth = wrapInt64 (r.AssetTotal - r.LiabilityTotal) ∧
      (r.NetWorth - (r.AssetTotal - r.LiabilityTotal)) % 2 ^ 64 = 0 ∧
      inInt64 r.NetWorth ∧ inInt64 r.AssetTotal ∧ inInt64 r.LiabilityTotal ∧
      r2.NetWorth = r.NetWorth ∧ r2.AssetTotal = r.AssetTotal ∧
      r2.LiabilityTotal = r.LiabilityTotal := by
  refine ⟨_, _, GetItems_ok da s s1 s2 username u items hu hl,
    GetItems_ok da t t1 t2 username u items2 hu2 hl2, rfl, rfl, ?_, ?_, ?_, ?_, ?_, ?_, ?_, ?_⟩
  · exact computeTotals_net items
  · show ((computeTotals items).net
      - ((computeTotals items).asset - (computeTotals items).liability)) % 2 ^ 64 = 0
    rw [computeTotals_net items]
    exact wrapInt64_modEq _
  · show inInt64 (computeTotals items).net
    rw [computeTotals_eq]
    exact inInt64_wrapInt64 _
  · show inInt64 (computeTotals items).asset
    rw [computeTotals_eq]
    exact inInt64_wrapInt64 _
  · show inInt64 (computeTotals items).liability
    rw [computeTotals_eq]
    exact inInt64_wrapInt64 _
  · show (computeTotals items2).net = (computeTotals items).net
    rw [computeTotals_perm hp]
  · show (computeTotals items2).asset = (computeTotals items).asset
    rw [computeTotals_perm hp]
  · show (computeTotals items2).liability = (computeTotals items).liability
    rw [computeTotals_perm hp]

/-- Instance of C11 on the in-memory store: items whose sums overflow, with a
kind that is neither `Asset` nor `Liability` and a negative value, listed in
two orders. -/
theorem GetItems_net_identity_witness :
    ∃ r r2,
      GetItems memDA ⟨[⟨1, "bob"⟩], mixedItems⟩ "bob"
        = (.ok (some r, none), ⟨[⟨1, "bob"⟩], mixedItems⟩) ∧
      GetItems memDA ⟨[⟨1, "bob"⟩], mixedItemsReordered⟩ "bob"
        = (.ok (some r2, none), ⟨[⟨1, "bob"⟩], mixedItemsReordered⟩) ∧
      r.Items = mixedItems ∧ r2.Items = mixedItemsReordered ∧
      r.NetWorth = wrapInt64 (r.AssetTotal - r.LiabilityTotal) ∧
      (r.NetWorth - (r.AssetTotal - r.LiabilityTotal)) % 2 ^ 64 = 0 ∧
      inInt64 r.NetWorth ∧ inInt64 r.AssetTotal ∧ inInt64 r.LiabilityTotal ∧
      r2.NetWorth = r.NetWorth ∧ r2.AssetTotal = r.AssetTotal ∧
      r2.LiabilityTotal = r.LiabilityTotal :=
  GetItems_net_identity memDA _ _ _ _ _ _ "bob" ⟨1, "bob"⟩ mixedItems mixedItemsReordered
    rfl rfl rfl rfl (by decide)

end WorthTracker
